import Mathlib

/-!
# Verification development for the `pulumi-go-service-gcp-demo` program

Shallow embedding of `main.go`: the template helper `filebase64OrPanic`, the
component constructor `NewService` and the callback `main` hands to `pulumi.Run`.

* Go strings and byte slices are lists of bytes.
* The SDK calls made through `*pulumi.Context` (`RegisterComponentResource` and the seven
  resource constructors) are parameters: what each call returns to the program, a
  resource or an error, is an arbitrary function of the calls made so far and of the
  request.  The file system is a parameter too.  Every call the program makes is appended
  to a log, together with what it returned.
* A Go function either returns or panics; `Outcome` records which.
* `base64.StdEncoding` and the fragment of `text/template` that consists of plain text
  and `.Field` actions are modelled after the Go standard library.  Templates outside
  that fragment yield the explicit result `unmodelled`.
-/

set_option autoImplicit false

namespace GcpDemo

/-! ## Strings and bytes -/

/-- One byte. -/
abbrev Byte := Fin 256

/-- Go `string` / `[]byte`: a sequence of bytes. -/
abbrev GoString := List Byte

/-- Go `error` value, identified by its message. -/
abbrev Error := String

/-- Byte string of an ASCII literal of the source. -/
def ascii (s : String) : GoString := s.toList.map (fun c => Fin.ofNat c.toNat)

/-! ## `encoding/base64`: `base64.StdEncoding` -/

/-- The standard base64 alphabet of RFC 4648 (`encodeStd` of `encoding/base64`). -/
def encodeStd : GoString :=
  ascii "ABCDEFGHIJKLMNOPQRSTUVWXYZabcdefghijklmnopqrstuvwxyz0123456789+/"

/-- The padding character `=` (`StdPadding`). -/
def padChar : Byte := 61

/-- Alphabet lookup `enc.encode[n & 0x3F]`. -/
def encodeSextet (n : Nat) : Byte := encodeStd.getD (n % 64) 0

/-- The function `base64.StdEncoding.EncodeToString`: every three source bytes give four
alphabet characters; a final group of one or two bytes is padded with `=`.  No line breaks
are inserted.  The shifts `val>>18`, `val>>12`, `val>>6` are divisions by powers of two. -/
def EncodeToString : List Byte → GoString
  | [] => []
  | [a] =>
    let val := a.val * 65536
    [encodeSextet (val / 262144), encodeSextet (val / 4096), padChar, padChar]
  | [a, b] =>
    let val := a.val * 65536 + b.val * 256
    [encodeSextet (val / 262144), encodeSextet (val / 4096), encodeSextet (val / 64), padChar]
  | a :: b :: c :: rest =>
    let val := a.val * 65536 + b.val * 256 + c.val
    encodeSextet (val / 262144) :: encodeSextet (val / 4096) :: encodeSextet (val / 64)
      :: encodeSextet val :: EncodeToString rest

/-- Inverse alphabet lookup (`enc.decodeMap`): the position of a character in the standard
alphabet, `none` for a character outside it. -/
def decodeSextet (c : Byte) : Option Nat :=
  let i := encodeStd.indexOf c
  if i < 64 then some i else none

/-- Standard base64 decoding (RFC 4648, section 4) of padded, unwrapped input: groups of
four characters give three bytes; padding is accepted only at the end of the input; any
character outside the alphabet is rejected. -/
def DecodeString : GoString → Option (List Byte)
  | [] => some []
  | c1 :: c2 :: c3 :: c4 :: rest =>
    match decodeSextet c1, decodeSextet c2 with
    | some s1, some s2 =>
      if c3 = padChar then
        if c4 = padChar ∧ rest = [] then some [Fin.ofNat (s1 * 4 + s2 / 16)] else none
      else
        match decodeSextet c3 with
        | none => none
        | some s3 =>
          if c4 = padChar then
            if rest = [] then
              some [Fin.ofNat (s1 * 4 + s2 / 16), Fin.ofNat (s2 % 16 * 16 + s3 / 4)]
            else none
          else
            match decodeSextet c4 with
            | none => none
            | some s4 =>
              (DecodeString rest).map (fun tl =>
                Fin.ofNat (s1 * 4 + s2 / 16) :: Fin.ofNat (s2 % 16 * 16 + s3 / 4)
                  :: Fin.ofNat (s3 % 4 * 64 + s4) :: tl)
    | _, _ => none
  | _ => none

/-! ## `text/template`: plain text and `.Field` actions -/

/-- Result of a call into the template library: a value, an error, or `unmodelled` when the
template uses a construct outside the modelled fragment (pipelines, control structures,
comments, trim markers, quoted strings, non-ASCII identifiers, ...). -/
inductive LibResult (α : Type) where
  | ok (a : α)
  | err (e : Error)
  | unmodelled
  deriving DecidableEq, Repr

/-- The data passed to the template (`type Filebase64OrPanicArgs struct`). -/
structure Filebase64OrPanicArgs where
  /-- Path of the template file. -/
  Path : GoString
  Project : GoString
  Region : GoString
  FunctionName : GoString
  deriving DecidableEq, Repr

/-- Parsed template: literal text and field actions. -/
inductive Node where
  | text (bs : List Byte)
  | field (name : GoString)
  deriving DecidableEq, Repr

/-- The byte `{`. -/
def leftBrace : Byte := 123

/-- The byte `}`. -/
def rightBrace : Byte := 125

/-- The byte `.`. -/
def dot : Byte := 46

/-- Blank inside an action: space or tab.  (Whether a line break may stand inside an action
depends on the version of the library; such actions are outside the fragment.) -/
def isSpace (b : Byte) : Bool := b = 32 || b = 9

/-- ASCII digit. -/
def isDigit (b : Byte) : Bool := 48 ≤ b.val && b.val ≤ 57

/-- Lexer predicate `isAlphaNumeric`, restricted to ASCII: underscore, digit or letter. -/
def isAlphaNumeric (b : Byte) : Bool :=
  b = 95 || isDigit b || (65 ≤ b.val && b.val ≤ 90) || (97 ≤ b.val && b.val ≤ 122)

/-- Recognise the text between the delimiters of an action as a single field reference:
optional spaces, a dot, an identifier not starting with a digit, optional spaces.
Anything else is outside the modelled fragment. -/
def fieldAction (content : List Byte) : Option GoString :=
  match content.dropWhile isSpace with
  | [] => none
  | d :: rest =>
    let name := rest.takeWhile isAlphaNumeric
    let tail := rest.dropWhile isAlphaNumeric
    match name with
    | [] => none
    | n :: _ => if d = dot ∧ ¬ isDigit n ∧ tail.all isSpace then some name else none

/-- Emit the pending text (collected in reverse) as a text node, unless it is empty. -/
def emitText (acc : List Byte) (nodes : List Node) : List Node :=
  if acc = [] then nodes else Node.text acc.reverse :: nodes

/-- Lexing and parsing of a template source.  In text mode (`false`) bytes are collected up
to the next left delimiter; in action mode (`true`) up to the next right delimiter.  The end
of input inside an action is the parse error "unclosed action". -/
def lex : Bool → List Byte → List Byte → LibResult (List Node)
  | false, acc, [] => .ok (emitText acc [])
  | false, acc, [b] => .ok (emitText (b :: acc) [])
  | false, acc, b :: c :: rest =>
    if b = leftBrace ∧ c = leftBrace then
      match lex true [] rest with
      | .ok nodes => .ok (emitText acc nodes)
      | r => r
    else lex false (b :: acc) (c :: rest)
  | true, _, [] => .err "unclosed action"
  | true, _, [_] => .err "unclosed action"
  | true, acc, b :: c :: rest =>
    if b = rightBrace ∧ c = rightBrace then
      match fieldAction acc.reverse with
      | none => .unmodelled
      | some name =>
        match lex false [] rest with
        | .ok nodes => .ok (Node.field name :: nodes)
        | r => r
    else lex true (b :: acc) (c :: rest)

/-- Parsing of a template source (`(*Template).Parse`). -/
def Parse (src : List Byte) : LibResult (List Node) := lex false [] src

/-- Field lookup on `*Filebase64OrPanicArgs`; a name that is not a field of the struct
cannot be evaluated. -/
def Filebase64OrPanicArgs.field (args : Filebase64OrPanicArgs) (name : GoString) :
    Option GoString :=
  if name = ascii "Path" then some args.Path
  else if name = ascii "Project" then some args.Project
  else if name = ascii "Region" then some args.Region
  else if name = ascii "FunctionName" then some args.FunctionName
  else none

/-- The method `(*Template).Execute`: text is copied, a field action writes the string
value of the field as it is (`text/template` does no escaping). -/
def Execute : List Node → Filebase64OrPanicArgs → LibResult (List Byte)
  | [], _ => .ok []
  | Node.text bs :: rest, args =>
    match Execute rest args with
    | .ok out => .ok (bs ++ out)
    | r => r
  | Node.field name :: rest, args =>
    match args.field name with
    | none => .err "cannot evaluate field"
    | some v =>
      match Execute rest args with
      | .ok out => .ok (v ++ out)
      | r => r

/-! ## The provisioning SDK -/

/-- An eventual value produced by the engine (`pulumi.Output`): an opaque token. -/
structure Output where
  token : Nat
  deriving DecidableEq, Repr

/-- The interface `pulumi.StringInput`: either a plain value (`pulumi.String`, also used here
for `pulumi.ID`) or an engine output. -/
inductive StringInput where
  | lit (s : GoString)
  | out (o : Output)
  deriving DecidableEq, Repr

/-- The handle `*Service` (`type Service struct { pulumi.ResourceState }`), identified by
the address of the allocated struct. -/
structure Service where
  addr : Nat
  deriving DecidableEq, Repr

/-- The interface `pulumi.ResourceOption`: `pulumi.Parent(r)` or any other option. -/
inductive ResourceOption where
  | Parent (r : Service)
  | Other (tag : Nat)
  deriving DecidableEq, Repr

/-- The value `pulumi.NewFileArchive(path)`. -/
inductive Archive where
  | FileArchive (path : GoString)
  deriving DecidableEq, Repr

/-- The fields of `storage.BucketArgs` the program sets. -/
structure BucketArgs where
  Location : StringInput
  deriving DecidableEq, Repr

/-- The fields of `storage.BucketObjectArgs` the program sets. -/
structure BucketObjectArgs where
  Bucket : StringInput
  Source : Archive
  deriving DecidableEq, Repr

/-- The fields of `cloudfunctions.FunctionArgs` the program sets. -/
structure FunctionArgs where
  Name : StringInput
  SourceArchiveBucket : StringInput
  Runtime : StringInput
  SourceArchiveObject : StringInput
  EntryPoint : StringInput
  TriggerHttp : Bool
  AvailableMemoryMb : Int
  deriving DecidableEq, Repr

/-- The fields of `cloudfunctions.FunctionIamMemberArgs` the program sets. -/
structure FunctionIamMemberArgs where
  Project : StringInput
  CloudFunction : StringInput
  Role : StringInput
  Member : StringInput
  deriving DecidableEq, Repr

/-- The fields of `apigateway.ApiArgs` the program sets. -/
structure ApiArgs where
  ApiId : StringInput
  deriving DecidableEq, Repr

/-- The struct `apigateway.ApiConfigOpenapiDocumentDocumentArgs`. -/
structure ApiConfigOpenapiDocumentDocumentArgs where
  Path : StringInput
  Contents : StringInput
  deriving DecidableEq, Repr

/-- The struct `apigateway.ApiConfigOpenapiDocumentArgs`. -/
structure ApiConfigOpenapiDocumentArgs where
  Document : ApiConfigOpenapiDocumentDocumentArgs
  deriving DecidableEq, Repr

/-- The fields of `apigateway.ApiConfigArgs` the program sets. -/
structure ApiConfigArgs where
  Api : StringInput
  ApiConfigId : StringInput
  OpenapiDocuments : List ApiConfigOpenapiDocumentArgs
  deriving DecidableEq, Repr

/-- The fields of `apigateway.GatewayArgs` the program sets. -/
structure GatewayArgs where
  ApiConfig : StringInput
  GatewayId : StringInput
  deriving DecidableEq, Repr

/-- The outputs of a `*storage.Bucket` the program reads. -/
structure Bucket where
  Name : Output
  deriving DecidableEq, Repr

/-- The outputs of a `*storage.BucketObject` the program reads. -/
structure BucketObject where
  Name : Output
  deriving DecidableEq, Repr

/-- The outputs of a `*cloudfunctions.Function` the program reads. -/
structure CloudFunction where
  Project : Output
  Name : Output
  deriving DecidableEq, Repr

/-- A `*cloudfunctions.FunctionIamMember`; the program discards it. -/
structure FunctionIamMember where
  Etag : Output
  deriving DecidableEq, Repr

/-- The outputs of an `*apigateway.Api` the program reads. -/
structure Api where
  ApiId : Output
  deriving DecidableEq, Repr

/-- The outputs of an `*apigateway.ApiConfig` the program reads (`ID()`). -/
structure ApiConfig where
  ID : Output
  deriving DecidableEq, Repr

/-- The outputs of an `*apigateway.Gateway` the program reads. -/
structure Gateway where
  DefaultHostname : Output
  deriving DecidableEq, Repr

deriving instance DecidableEq for Except

/-- One call made by the program to the outside, with the reply it received. -/
inductive Event where
  | RegisterComponentResource (t name : GoString) (resource : Service)
      (opts : List ResourceOption) (reply : Option Error)
  | NewBucket (name : GoString) (args : BucketArgs) (opts : List ResourceOption)
      (reply : Except Error Bucket)
  | NewBucketObject (name : GoString) (args : BucketObjectArgs) (opts : List ResourceOption)
      (reply : Except Error BucketObject)
  | NewFunction (name : GoString) (args : FunctionArgs) (opts : List ResourceOption)
      (reply : Except Error CloudFunction)
  | NewFunctionIamMember (name : GoString) (args : FunctionIamMemberArgs)
      (opts : List ResourceOption) (reply : Except Error FunctionIamMember)
  | NewApi (name : GoString) (args : ApiArgs) (opts : List ResourceOption)
      (reply : Except Error Api)
  | NewApiConfig (name : GoString) (args : ApiConfigArgs) (opts : List ResourceOption)
      (reply : Except Error ApiConfig)
  | NewGateway (name : GoString) (args : GatewayArgs) (opts : List ResourceOption)
      (reply : Except Error Gateway)
  | ReadFile (path : GoString) (reply : Except Error (List Byte))
  | Export (name : GoString) (value : Output)
  deriving DecidableEq

/-- The SDK as reached through `*pulumi.Context`: what each call returns to the program at
once, a resource or an error, as an arbitrary function of the calls made so far and of the
request. -/
structure Context where
  RegisterComponentResource :
    List Event → GoString → GoString → Service → List ResourceOption → Option Error
  NewBucket : List Event → GoString → BucketArgs → List ResourceOption → Except Error Bucket
  NewBucketObject :
    List Event → GoString → BucketObjectArgs → List ResourceOption → Except Error BucketObject
  NewFunction :
    List Event → GoString → FunctionArgs → List ResourceOption → Except Error CloudFunction
  NewFunctionIamMember :
    List Event → GoString → FunctionIamMemberArgs → List ResourceOption →
      Except Error FunctionIamMember
  NewApi : List Event → GoString → ApiArgs → List ResourceOption → Except Error Api
  NewApiConfig :
    List Event → GoString → ApiConfigArgs → List ResourceOption → Except Error ApiConfig
  NewGateway : List Event → GoString → GatewayArgs → List ResourceOption → Except Error Gateway

/-- The file system: the reply to reading the file at a path. -/
abbrev FileSystem := GoString → Except Error (List Byte)

/-- Mutable state of a run: the log of calls made so far and the next unused heap address. -/
structure World where
  log : List Event
  heap : Nat

/-- Append an event to the log. -/
def World.record (w : World) (ev : Event) : World := { w with log := w.log ++ [ev] }

/-- How a Go function call ends: it returns a value, it panics, or it ran a template outside
the modelled fragment of `text/template`. -/
inductive Outcome (α : Type) where
  | ret (a : α)
  | panic (e : Error)
  | unmodelled
  deriving DecidableEq, Repr

/-- The call `template.ParseFiles(path)`: read the file, then parse its content. -/
def ParseFiles (fs : FileSystem) (path : GoString) (w : World) :
    LibResult (List Node) × World :=
  let r := fs path
  let w := w.record (Event.ReadFile path r)
  match r with
  | .error e => (.err e, w)
  | .ok content => (Parse content, w)

/-- The call `ctx.RegisterComponentResource(t, name, resource, opts...)`. -/
def RegisterComponentResource (ctx : Context) (t name : GoString) (resource : Service)
    (opts : List ResourceOption) (w : World) : Option Error × World :=
  let r := ctx.RegisterComponentResource w.log t name resource opts
  (r, w.record (Event.RegisterComponentResource t name resource opts r))

/-- The call `storage.NewBucket(ctx, name, args, opts...)`. -/
def NewBucket (ctx : Context) (name : GoString) (args : BucketArgs)
    (opts : List ResourceOption) (w : World) : Except Error Bucket × World :=
  let r := ctx.NewBucket w.log name args opts
  (r, w.record (Event.NewBucket name args opts r))

/-- The call `storage.NewBucketObject(ctx, name, args, opts...)`. -/
def NewBucketObject (ctx : Context) (name : GoString) (args : BucketObjectArgs)
    (opts : List ResourceOption) (w : World) : Except Error BucketObject × World :=
  let r := ctx.NewBucketObject w.log name args opts
  (r, w.record (Event.NewBucketObject name args opts r))

/-- The call `cloudfunctions.NewFunction(ctx, name, args, opts...)`. -/
def NewFunction (ctx : Context) (name : GoString) (args : FunctionArgs)
    (opts : List ResourceOption) (w : World) : Except Error CloudFunction × World :=
  let r := ctx.NewFunction w.log name args opts
  (r, w.record (Event.NewFunction name args opts r))

/-- The call `cloudfunctions.NewFunctionIamMember(ctx, name, args, opts...)`. -/
def NewFunctionIamMember (ctx : Context) (name : GoString) (args : FunctionIamMemberArgs)
    (opts : List ResourceOption) (w : World) : Except Error FunctionIamMember × World :=
  let r := ctx.NewFunctionIamMember w.log name args opts
  (r, w.record (Event.NewFunctionIamMember name args opts r))

/-- The call `apigateway.NewApi(ctx, name, args, opts...)`. -/
def NewApi (ctx : Context) (name : GoString) (args : ApiArgs)
    (opts : List ResourceOption) (w : World) : Except Error Api × World :=
  let r := ctx.NewApi w.log name args opts
  (r, w.record (Event.NewApi name args opts r))

/-- The call `apigateway.NewApiConfig(ctx, name, args, opts...)`. -/
def NewApiConfig (ctx : Context) (name : GoString) (args : ApiConfigArgs)
    (opts : List ResourceOption) (w : World) : Except Error ApiConfig × World :=
  let r := ctx.NewApiConfig w.log name args opts
  (r, w.record (Event.NewApiConfig name args opts r))

/-- The call `apigateway.NewGateway(ctx, name, args, opts...)`. -/
def NewGateway (ctx : Context) (name : GoString) (args : GatewayArgs)
    (opts : List ResourceOption) (w : World) : Except Error Gateway × World :=
  let r := ctx.NewGateway w.log name args opts
  (r, w.record (Event.NewGateway name args opts r))

/-- The call `ctx.Export(name, value)`. -/
def Export (name : GoString) (value : Output) (w : World) : World :=
  w.record (Event.Export name value)

/-! ## The program -/

/-- The function `filebase64OrPanic`: parse the template file at `args.Path`, execute it
with `args` as data into a buffer, and return the base64 encoding of the buffer wrapped as
`pulumi.String`.  Both the parse error and the execution error panic. -/
def filebase64OrPanic (fs : FileSystem) (args : Filebase64OrPanicArgs) (w : World) :
    Outcome StringInput × World :=
  match ParseFiles fs args.Path w with
  | (.err e, w) => (.panic e, w)
  | (.unmodelled, w) => (.unmodelled, w)
  | (.ok tmpl, w) =>
    match Execute tmpl args with
    | .err e => (.panic e, w)
    | .unmodelled => (.unmodelled, w)
    | .ok buf => (.ret (StringInput.lit (EncodeToString buf)), w)

/-- The struct `ServiceArgs`. -/
structure ServiceArgs where
  Project : GoString
  Region : GoString
  Path : GoString
  deriving DecidableEq, Repr

/-- The function `NewService`.  `args` is a pointer, `none` being `nil`; the result pairs the
returned `*Service` (`none` for `nil`) with the returned `error` (`none` for `nil`). -/
def NewService (fs : FileSystem) (ctx : Context) (name : GoString) (args : Option ServiceArgs)
    (opts : List ResourceOption) (w : World) :
    Outcome (Option Service × Option Error) × World :=
  match args with
  | none => (.ret (none, some "missing one or more required arguments"), w)
  | some args =>
  if args.Project = [] then (.ret (none, some "missing project argument"), w)
  else if args.Region = [] then (.ret (none, some "missing region argument"), w)
  else if args.Path = [] then (.ret (none, some "missing path argument"), w)
  else
  let service : Service := ⟨w.heap⟩
  let w := { w with heap := w.heap + 1 }
  match RegisterComponentResource ctx (ascii "bluprince13:gcp:Service") name service opts w with
  | (some err, w) => (.ret (none, some err), w)
  | (none, w) =>
  match NewBucket ctx (ascii "bucket")
      { Location := .lit (ascii "EU") } [.Parent service] w with
  | (.error err, w) => (.panic err, w)
  | (.ok bucket, w) =>
  match NewBucketObject ctx (ascii "go-zip")
      { Bucket := .out bucket.Name, Source := .FileArchive args.Path } [.Parent service] w with
  | (.error err, w) => (.panic err, w)
  | (.ok bucketObject, w) =>
  match NewFunction ctx (ascii "function")
      { Name := .lit (ascii "function"),
        SourceArchiveBucket := .out bucket.Name,
        Runtime := .lit (ascii "go116"),
        SourceArchiveObject := .out bucketObject.Name,
        EntryPoint := .lit (ascii "Handler"),
        TriggerHttp := true,
        AvailableMemoryMb := 128 } [.Parent service] w with
  | (.error err, w) => (.panic err, w)
  | (.ok function, w) =>
  match NewFunctionIamMember ctx (ascii "invoker")
      { Project := .out function.Project,
        CloudFunction := .out function.Name,
        Role := .lit (ascii "roles/cloudfunctions.invoker"),
        Member := .lit (ascii "allUsers") } [.Parent service] w with
  | (.error err, w) => (.panic err, w)
  | (.ok _, w) =>
  match NewApi ctx (ascii "api") { ApiId := .lit (ascii "api") } [.Parent service] w with
  | (.error err, w) => (.panic err, w)
  | (.ok api, w) =>
  match filebase64OrPanic fs
      { Path := ascii "openapi.yaml",
        Project := args.Project,
        Region := args.Region,
        FunctionName := ascii "function" } w with
  | (.panic err, w) => (.panic err, w)
  | (.unmodelled, w) => (.unmodelled, w)
  | (.ret contents, w) =>
  match NewApiConfig ctx (ascii "apiConfig")
      { Api := .out api.ApiId,
        ApiConfigId := .lit (ascii "cfg"),
        OpenapiDocuments :=
          [{ Document := { Path := .lit (ascii "openapi.yaml"), Contents := contents } }] }
      [.Parent service] w with
  | (.error err, w) => (.panic err, w)
  | (.ok apiConfig, w) =>
  match NewGateway ctx (ascii "gateway")
      { ApiConfig := .out apiConfig.ID, GatewayId := .lit (ascii "gateway") }
      [.Parent service] w with
  | (.error err, w) => (.panic err, w)
  | (.ok gateway, w) =>
  let w := Export (ascii "url") gateway.DefaultHostname w
  (.ret (some service, none), w)

/-- The calls made by one run of `NewService`: what the run appended to the log. -/
def NewService.events (fs : FileSystem) (ctx : Context) (name : GoString)
    (args : Option ServiceArgs) (opts : List ResourceOption) (w : World) : List Event :=
  (NewService fs ctx name args opts w).2.log.drop w.log.length

/-- Whether a call is one of the seven resource declarations. -/
def Event.isDeclaration : Event → Bool
  | .NewBucket .. => true
  | .NewBucketObject .. => true
  | .NewFunction .. => true
  | .NewFunctionIamMember .. => true
  | .NewApi .. => true
  | .NewApiConfig .. => true
  | .NewGateway .. => true
  | _ => false

/-- The option list of a resource declaration; `none` for every other call. -/
def Event.declOpts : Event → Option (List ResourceOption)
  | .NewBucket _ _ opts _ => some opts
  | .NewBucketObject _ _ opts _ => some opts
  | .NewFunction _ _ opts _ => some opts
  | .NewFunctionIamMember _ _ opts _ => some opts
  | .NewApi _ _ opts _ => some opts
  | .NewApiConfig _ _ opts _ => some opts
  | .NewGateway _ _ opts _ => some opts
  | _ => none

/-- The error a resource constructor returned for a declaration, if it returned one. -/
def Event.declError : Event → Option Error
  | .NewBucket _ _ _ (.error e) => some e
  | .NewBucketObject _ _ _ (.error e) => some e
  | .NewFunction _ _ _ (.error e) => some e
  | .NewFunctionIamMember _ _ _ (.error e) => some e
  | .NewApi _ _ _ (.error e) => some e
  | .NewApiConfig _ _ _ (.error e) => some e
  | .NewGateway _ _ _ (.error e) => some e
  | _ => none

/-- Whether the provisioning engine accepted a call.  Reading a file and recording an
export are not requests the engine can reject. -/
def Event.engineAccepted : Event → Bool
  | .RegisterComponentResource _ _ _ _ reply => reply.isNone
  | .NewBucket _ _ _ reply => reply.isOk
  | .NewBucketObject _ _ _ reply => reply.isOk
  | .NewFunction _ _ _ reply => reply.isOk
  | .NewFunctionIamMember _ _ _ reply => reply.isOk
  | .NewApi _ _ _ reply => reply.isOk
  | .NewApiConfig _ _ _ reply => reply.isOk
  | .NewGateway _ _ _ reply => reply.isOk
  | .ReadFile .. => true
  | .Export .. => true

/-- The engine outputs a call hands back to the program. -/
def Event.produces : Event → List Output
  | .NewBucket _ _ _ (.ok r) => [r.Name]
  | .NewBucketObject _ _ _ (.ok r) => [r.Name]
  | .NewFunction _ _ _ (.ok r) => [r.Project, r.Name]
  | .NewFunctionIamMember _ _ _ (.ok r) => [r.Etag]
  | .NewApi _ _ _ (.ok r) => [r.ApiId]
  | .NewApiConfig _ _ _ (.ok r) => [r.ID]
  | .NewGateway _ _ _ (.ok r) => [r.DefaultHostname]
  | _ => []

/-- The engine outputs inside a list of inputs. -/
def outputsOf : List StringInput → List Output
  | [] => []
  | .out o :: rest => o :: outputsOf rest
  | .lit _ :: rest => outputsOf rest

/-- The engine outputs a call consumes in its arguments. -/
def Event.consumes : Event → List Output
  | .NewBucket _ a _ _ => outputsOf [a.Location]
  | .NewBucketObject _ a _ _ => outputsOf [a.Bucket]
  | .NewFunction _ a _ _ =>
    outputsOf [a.Name, a.SourceArchiveBucket, a.Runtime, a.SourceArchiveObject, a.EntryPoint]
  | .NewFunctionIamMember _ a _ _ => outputsOf [a.Project, a.CloudFunction, a.Role, a.Member]
  | .NewApi _ a _ _ => outputsOf [a.ApiId]
  | .NewApiConfig _ a _ _ =>
    outputsOf ([a.Api, a.ApiConfigId] ++
      a.OpenapiDocuments.map (fun d => d.Document.Path) ++
      a.OpenapiDocuments.map (fun d => d.Document.Contents))
  | .NewGateway _ a _ _ => outputsOf [a.ApiConfig, a.GatewayId]
  | .Export _ v => [v]
  | _ => []

/-- Every output a call consumes was produced by a call strictly earlier in the list
(`avail` holds the outputs produced before the list starts). -/
def dependenciesEarlier : List Output → List Event → Bool
  | _, [] => true
  | avail, ev :: rest =>
    ev.consumes.all (fun o => decide (o ∈ avail)) && dependenciesEarlier (avail ++ ev.produces) rest

/-- The component a call registers. -/
def Event.registered : Event → Option (GoString × GoString × Service × List ResourceOption)
  | .RegisterComponentResource t name r opts _ => some (t, name, r, opts)
  | _ => none

/-- The name and value of a recorded export. -/
def Event.exported : Event → Option (GoString × Output)
  | .Export name v => some (name, v)
  | _ => none

/-- The path of a file read. -/
def Event.fileRead : Event → Option GoString
  | .ReadFile path _ => some path
  | _ => none

/-- The arguments of an IAM member declaration. -/
def Event.iamMemberArgs : Event → Option FunctionIamMemberArgs
  | .NewFunctionIamMember _ a _ _ => some a
  | _ => none

/-- The arguments of a function declaration. -/
def Event.functionArgs : Event → Option FunctionArgs
  | .NewFunction _ a _ _ => some a
  | _ => none

/-- The reply to a function declaration. -/
def Event.functionReply : Event → Option (Except Error CloudFunction)
  | .NewFunction _ _ _ r => some r
  | _ => none

/-- The arguments of an API config declaration. -/
def Event.apiConfigArgs : Event → Option ApiConfigArgs
  | .NewApiConfig _ a _ _ => some a
  | _ => none

/-- The reply to a gateway declaration. -/
def Event.gatewayReply : Event → Option (Except Error Gateway)
  | .NewGateway _ _ _ r => some r
  | _ => none

/-! ## Templates made of text and the four placeholders -/

/-- The four fields of `Filebase64OrPanicArgs`. -/
inductive Field where
  | Path
  | Project
  | Region
  | FunctionName
  deriving DecidableEq, Repr

/-- The Go name of a field. -/
def Field.name : Field → GoString
  | .Path => ascii "Path"
  | .Project => ascii "Project"
  | .Region => ascii "Region"
  | .FunctionName => ascii "FunctionName"

/-- The value of a field in a request. -/
def Field.value (a : Filebase64OrPanicArgs) : Field → GoString
  | .Path => a.Path
  | .Project => a.Project
  | .Region => a.Region
  | .FunctionName => a.FunctionName

/-- A piece of template source: literal text or the placeholder of a field. -/
inductive Segment where
  | text (bs : List Byte)
  | placeholder (f : Field)
  deriving DecidableEq, Repr

/-- The source text of a placeholder: left delimiter, dot, field name, right delimiter. -/
def placeholderText (f : Field) : List Byte :=
  leftBrace :: leftBrace :: dot :: (f.name ++ [rightBrace, rightBrace])

/-- The template source a list of segments stands for. -/
def templateSource : List Segment → List Byte
  | [] => []
  | .text bs :: rest => bs ++ templateSource rest
  | .placeholder f :: rest => placeholderText f ++ templateSource rest

/-- The template with every placeholder replaced by the value of its field, verbatim, and
every other byte unchanged. -/
def substitute (a : Filebase64OrPanicArgs) : List Segment → List Byte
  | [] => []
  | .text bs :: rest => bs ++ substitute a rest
  | .placeholder f :: rest => f.value a ++ substitute a rest

/-- The text holds no left delimiter (two adjacent left braces). -/
def noLeftDelim : List Byte → Bool
  | b :: c :: rest => !(b = leftBrace && c = leftBrace) && noLeftDelim (c :: rest)
  | _ => true

/-- The text ends in a left brace. -/
def endsOpen (bs : List Byte) : Bool := bs.getLast? = some leftBrace

/-- The placeholders are the only actions of the template: no literal text holds a left
delimiter, and a literal that ends in a left brace is the last segment (so that it cannot
form a delimiter with what follows). -/
def placeholdersOnly : List Segment → Bool
  | [] => true
  | .text bs :: rest => noLeftDelim bs && (!endsOpen bs || rest.isEmpty) && placeholdersOnly rest
  | .placeholder _ :: rest => placeholdersOnly rest

/-! ## Concrete engines, files and inputs -/

/-- An engine that accepts every request; the outputs it hands back are numbered by the
position of the call in the log. -/
def acceptAll : Context where
  RegisterComponentResource := fun _ _ _ _ _ => none
  NewBucket := fun log _ _ _ => .ok ⟨⟨10 * log.length⟩⟩
  NewBucketObject := fun log _ _ _ => .ok ⟨⟨10 * log.length⟩⟩
  NewFunction := fun log _ _ _ => .ok ⟨⟨10 * log.length⟩, ⟨10 * log.length + 1⟩⟩
  NewFunctionIamMember := fun log _ _ _ => .ok ⟨⟨10 * log.length⟩⟩
  NewApi := fun log _ _ _ => .ok ⟨⟨10 * log.length⟩⟩
  NewApiConfig := fun log _ _ _ => .ok ⟨⟨10 * log.length⟩⟩
  NewGateway := fun log _ _ _ => .ok ⟨⟨10 * log.length⟩⟩

/-- A context on which the call `ctx.RegisterComponentResource` returns an error, and every
resource constructor returns a resource. -/
def registrationFails : Context :=
  { acceptAll with RegisterComponentResource := fun _ _ _ _ _ => some "registration failed" }

/-- A context on which the call `apigateway.NewGateway` returns an error, and every other
call succeeds. -/
def gatewayFails : Context :=
  { acceptAll with NewGateway := fun _ _ _ _ => .error "gateway failed" }

/-- A file system without any file. -/
def noFiles : FileSystem := fun _ => .error "no such file or directory"

/-- A template with each of the four placeholders exactly once. -/
def sampleSegments : List Segment :=
  [.text (ascii "x-src: "), .placeholder .Path,
   .text (ascii "\naddress: https://"), .placeholder .Region, .text (ascii "-"),
   .placeholder .Project, .text (ascii ".cloudfunctions.net/"), .placeholder .FunctionName,
   .text (ascii "\npaths: \x7b/hello/\x7bid\x7d: \x7b\x7d\x7d\n")]

/-- A file system that holds the sample template under every name. -/
def sampleFiles : FileSystem := fun _ => .ok (templateSource sampleSegments)

/-- The request of the rendering example of the specification. -/
def sampleRequest : Filebase64OrPanicArgs :=
  { Path := ascii "p", Project := ascii "proj", Region := ascii "europe-west2",
    FunctionName := ascii "function" }

/-- The arguments of the end-to-end example of the specification. -/
def sampleArgs : ServiceArgs :=
  { Project := ascii "proj", Region := ascii "europe-west2", Path := ascii "pkg/helloworld" }

/-- An initial state: empty log. -/
def emptyWorld : World := { log := [], heap := 0 }

/-- The request `NewService` passes to `filebase64OrPanic`. -/
def openapiRequest (args : ServiceArgs) : Filebase64OrPanicArgs :=
  { Path := ascii "openapi.yaml", Project := args.Project, Region := args.Region,
    FunctionName := ascii "function" }

/-- The seven resource declarations of a build, in the order of the source, as a function
of the handle, the arguments, the rendered document and the resources the engine handed
back. -/
def declaredTopology (service : Service) (args : ServiceArgs) (contents : StringInput)
    (bucket : Bucket) (bucketObject : BucketObject) (function : CloudFunction)
    (iam : FunctionIamMember) (api : Api) (apiConfig : ApiConfig) (gateway : Gateway) :
    List Event :=
  [ .NewBucket (ascii "bucket") { Location := .lit (ascii "EU") } [.Parent service]
      (.ok bucket),
    .NewBucketObject (ascii "go-zip")
      { Bucket := .out bucket.Name, Source := .FileArchive args.Path } [.Parent service]
      (.ok bucketObject),
    .NewFunction (ascii "function")
      { Name := .lit (ascii "function"),
        SourceArchiveBucket := .out bucket.Name,
        Runtime := .lit (ascii "go116"),
        SourceArchiveObject := .out bucketObject.Name,
        EntryPoint := .lit (ascii "Handler"),
        TriggerHttp := true,
        AvailableMemoryMb := 128 } [.Parent service] (.ok function),
    .NewFunctionIamMember (ascii "invoker")
      { Project := .out function.Project,
        CloudFunction := .out function.Name,
        Role := .lit (ascii "roles/cloudfunctions.invoker"),
        Member := .lit (ascii "allUsers") } [.Parent service] (.ok iam),
    .NewApi (ascii "api") { ApiId := .lit (ascii "api") } [.Parent service] (.ok api),
    .NewApiConfig (ascii "apiConfig")
      { Api := .out api.ApiId,
        ApiConfigId := .lit (ascii "cfg"),
        OpenapiDocuments :=
          [{ Document := { Path := .lit (ascii "openapi.yaml"), Contents := contents } }] }
      [.Parent service] (.ok apiConfig),
    .NewGateway (ascii "gateway")
      { ApiConfig := .out apiConfig.ID, GatewayId := .lit (ascii "gateway") }
      [.Parent service] (.ok gateway) ]

/-! # Theorems -/

/-! ## Base64 -/

theorem decodeSextet_encodeSextet (n : Nat) :
    decodeSextet (encodeSextet n) = some (n % 64) := by
  have h : ∀ k : Fin 64, decodeSextet (encodeSextet k.val) = some k.val := by decide
  have h2 := h ⟨n % 64, Nat.mod_lt _ (by decide)⟩
  have h3 : encodeSextet (n % 64) = encodeSextet n := by simp [encodeSextet]
  simpa [h3] using h2

theorem encodeSextet_ne_padChar (n : Nat) : encodeSextet n ≠ padChar := by
  have h : ∀ k : Fin 64, encodeSextet k.val ≠ padChar := by decide
  have h2 := h ⟨n % 64, Nat.mod_lt _ (by decide)⟩
  have h3 : encodeSextet (n % 64) = encodeSextet n := by simp [encodeSextet]
  simpa [h3] using h2

theorem encodeSextet_mem (n : Nat) : encodeSextet n ∈ encodeStd := by
  have h : ∀ k : Fin 64, encodeSextet k.val ∈ encodeStd := by decide
  have h2 := h ⟨n % 64, Nat.mod_lt _ (by decide)⟩
  have h3 : encodeSextet (n % 64) = encodeSextet n := by simp [encodeSextet]
  simpa [h3] using h2

/-- Decoding inverts encoding on every byte sequence. -/
theorem DecodeString_EncodeToString (src : List Byte) :
    DecodeString (EncodeToString src) = some src := by
  induction src using EncodeToString.induct with
  | case1 => rfl
  | case2 a =>
    simp only [EncodeToString, DecodeString, decodeSextet_encodeSextet, if_true, and_self]
    have := a.isLt
    congr 2
    apply Fin.ext
    simp [Fin.ofNat]
    omega
  | case3 a b =>
    simp only [EncodeToString, DecodeString, decodeSextet_encodeSextet, if_true,
      encodeSextet_ne_padChar, if_false]
    have := a.isLt
    have := b.isLt
    congr 2
    · apply Fin.ext; simp [Fin.ofNat]; omega
    · congr 1; apply Fin.ext; simp [Fin.ofNat]; omega
  | case4 a b c rest ih =>
    simp only [EncodeToString, DecodeString, decodeSextet_encodeSextet,
      encodeSextet_ne_padChar, if_false, ih, Option.map_some']
    have := a.isLt
    have := b.isLt
    have := c.isLt
    congr 2
    · apply Fin.ext; simp [Fin.ofNat]; omega
    · congr 1
      · apply Fin.ext; simp [Fin.ofNat]; omega
      · congr 1; apply Fin.ext; simp [Fin.ofNat]; omega

/-- The encoding has four characters for every started group of three bytes. -/
theorem EncodeToString_length (src : List Byte) :
    (EncodeToString src).length = 4 * ((src.length + 2) / 3) := by
  induction src using EncodeToString.induct with
  | case1 => rfl
  | case2 a => simp [EncodeToString]
  | case3 a b => simp [EncodeToString]
  | case4 a b c rest ih =>
    simp only [EncodeToString, List.length_cons, ih]
    omega

/-- The encoding uses only the standard alphabet and the padding character. -/
theorem EncodeToString_alphabet (src : List Byte) :
    ∀ ch ∈ EncodeToString src, ch ∈ encodeStd ∨ ch = padChar := by
  induction src using EncodeToString.induct with
  | case1 => simp [EncodeToString]
  | case2 a => simp [EncodeToString, encodeSextet_mem]
  | case3 a b => simp [EncodeToString, encodeSextet_mem]
  | case4 a b c rest ih =>
    intro ch hch
    simp only [EncodeToString, List.mem_cons] at hch
    rcases hch with h | h | h | h | h
    · exact Or.inl (h ▸ encodeSextet_mem _)
    · exact Or.inl (h ▸ encodeSextet_mem _)
    · exact Or.inl (h ▸ encodeSextet_mem _)
    · exact Or.inl (h ▸ encodeSextet_mem _)
    · exact ih ch h

/-- Neither the alphabet nor the padding character is a carriage return or a newline. -/
theorem alphabet_no_line_break (ch : Byte) (h : ch ∈ encodeStd ∨ ch = padChar) :
    ch ≠ 10 ∧ ch ≠ 13 := by
  have h10 : (10 : Byte) ∉ encodeStd ∧ (10 : Byte) ≠ padChar := by decide
  have h13 : (13 : Byte) ∉ encodeStd ∧ (13 : Byte) ≠ padChar := by decide
  constructor
  · intro heq
    subst heq
    rcases h with h | h
    · exact h10.1 h
    · exact h10.2 h
  · intro heq
    subst heq
    rcases h with h | h
    · exact h13.1 h
    · exact h13.2 h

/-! ## `filebase64OrPanic` -/

theorem filebase64OrPanic_world (fs : FileSystem) (a : Filebase64OrPanicArgs) (w : World) :
    (filebase64OrPanic fs a w).2 = w.record (.ReadFile a.Path (fs a.Path)) := by
  unfold filebase64OrPanic ParseFiles
  cases fs a.Path with
  | error e => rfl
  | ok src =>
    simp only
    cases Parse src with
    | err e => rfl
    | unmodelled => rfl
    | ok tmpl =>
      simp only
      cases Execute tmpl a <;> rfl

/-- The outcome of `filebase64OrPanic` does not depend on the state it is called in. -/
theorem filebase64OrPanic_outcome (fs : FileSystem) (a : Filebase64OrPanicArgs) (w w' : World) :
    (filebase64OrPanic fs a w).1 = (filebase64OrPanic fs a w').1 := by
  unfold filebase64OrPanic ParseFiles
  cases fs a.Path with
  | error e => rfl
  | ok src =>
    simp only
    cases Parse src with
    | err e => rfl
    | unmodelled => rfl
    | ok tmpl =>
      simp only
      cases Execute tmpl a <;> rfl

theorem filebase64OrPanic_eq_iff (fs : FileSystem) (a : Filebase64OrPanicArgs) (w w' : World)
    (o : Outcome StringInput) :
    filebase64OrPanic fs a w = (o, w') ↔
      (filebase64OrPanic fs a emptyWorld).1 = o ∧
        w.record (.ReadFile a.Path (fs a.Path)) = w' := by
  rw [← filebase64OrPanic_world, Prod.ext_iff, filebase64OrPanic_outcome fs a w emptyWorld]

/-- When `filebase64OrPanic` returns, the file was read and parsed, the template was
executed, and the result is the encoding of the rendered bytes. -/
theorem filebase64OrPanic_ret (fs : FileSystem) (a : Filebase64OrPanicArgs) (w : World)
    (c : StringInput) (h : (filebase64OrPanic fs a w).1 = .ret c) :
    ∃ src tmpl buf, fs a.Path = .ok src ∧ Parse src = .ok tmpl ∧ Execute tmpl a = .ok buf ∧
      c = .lit (EncodeToString buf) := by
  unfold filebase64OrPanic ParseFiles at h
  cases hsrc : fs a.Path with
  | error e => simp [hsrc] at h
  | ok src =>
    simp only [hsrc] at h
    cases htmpl : Parse src with
    | err e => simp [htmpl] at h
    | unmodelled => simp [htmpl] at h
    | ok tmpl =>
      simp only [htmpl] at h
      cases hbuf : Execute tmpl a with
      | err e => simp [hbuf] at h
      | unmodelled => simp [hbuf] at h
      | ok buf =>
        simp only [hbuf, Outcome.ret.injEq] at h
        exact ⟨src, tmpl, buf, rfl, htmpl, hbuf, h.symm⟩

/-- When the file holds a template that renders, `filebase64OrPanic` returns. -/
theorem filebase64OrPanic_of_render (fs : FileSystem) (a : Filebase64OrPanicArgs) (w : World)
    (src : List Byte) (tmpl : List Node) (buf : List Byte)
    (hsrc : fs a.Path = .ok src) (htmpl : Parse src = .ok tmpl)
    (hbuf : Execute tmpl a = .ok buf) :
    (filebase64OrPanic fs a w).1 = .ret (.lit (EncodeToString buf)) := by
  simp [filebase64OrPanic, ParseFiles, hsrc, htmpl, hbuf]

/-- C7. Whenever `filebase64OrPanic` returns, for any template file content and any
arguments, the returned string is the base64 encoding of the rendered template bytes:
standard alphabet, padded to a multiple of four characters, without line breaks; and
standard base64 decoding of it yields exactly the rendered bytes.  Decoding after encoding
is the identity on every byte sequence, the empty one included. -/
theorem filebase64OrPanic_base64_round_trip (fs : FileSystem) (a : Filebase64OrPanicArgs)
    (w : World) (c : StringInput) (h : (filebase64OrPanic fs a w).1 = .ret c) :
    (∃ src tmpl buf, fs a.Path = .ok src ∧ Parse src = .ok tmpl ∧ Execute tmpl a = .ok buf ∧
      c = .lit (EncodeToString buf) ∧
      DecodeString (EncodeToString buf) = some buf ∧
      (EncodeToString buf).length = 4 * ((buf.length + 2) / 3) ∧
      ∀ ch ∈ EncodeToString buf, (ch ∈ encodeStd ∨ ch = padChar) ∧ ch ≠ 10 ∧ ch ≠ 13) ∧
    (∀ bs : List Byte, DecodeString (EncodeToString bs) = some bs) ∧
    DecodeString (EncodeToString []) = some [] := by
  obtain ⟨src, tmpl, buf, hsrc, htmpl, hbuf, hc⟩ := filebase64OrPanic_ret fs a w c h
  refine ⟨⟨src, tmpl, buf, hsrc, htmpl, hbuf, hc, DecodeString_EncodeToString buf,
    EncodeToString_length buf, ?_⟩, DecodeString_EncodeToString, rfl⟩
  intro ch hch
  have hmem := EncodeToString_alphabet buf ch hch
  exact ⟨hmem, alphabet_no_line_break ch hmem⟩

/-- Witness for C7: the sample template rendered with the sample request. -/
theorem filebase64OrPanic_base64_round_trip_witness :
    ∃ c, (filebase64OrPanic sampleFiles sampleRequest emptyWorld).1 = .ret c ∧
      ∃ buf, c = .lit (EncodeToString buf) ∧ DecodeString (EncodeToString buf) = some buf :=
  have h : (filebase64OrPanic sampleFiles sampleRequest emptyWorld).1
      = .ret (.lit (EncodeToString (substitute sampleRequest sampleSegments))) := by decide
  ⟨_, h,
    match (filebase64OrPanic_base64_round_trip sampleFiles sampleRequest emptyWorld _ h).1 with
    | ⟨_, _, buf, _, _, _, hc, hd, _⟩ => ⟨buf, hc, hd⟩⟩

/-! ## Templates -/

theorem Field.lookup (a : Filebase64OrPanicArgs) (f : Field) :
    a.field f.name = some (f.value a) := by
  cases f <;> rfl

theorem Field.action (f : Field) :
    rightBrace ∉ dot :: f.name ∧ fieldAction (dot :: f.name) = some f.name := by
  cases f <;> decide

theorem lex_text_append (rest : List Byte) (bs : List Byte) :
    ∀ acc : List Byte, noLeftDelim bs = true → endsOpen bs = false →
      lex false acc (bs ++ rest) = lex false (bs.reverse ++ acc) rest := by
  induction bs with
  | nil => intro acc _ _; rfl
  | cons b tl ih =>
    intro acc hno hend
    cases tl with
    | nil =>
      have hb : b ≠ leftBrace := by
        intro hb
        simp [endsOpen, hb] at hend
      cases rest with
      | nil => simp [lex]
      | cons c rest => simp [lex, hb]
    | cons c tl =>
      simp only [noLeftDelim, Bool.and_eq_true, Bool.not_eq_true', Bool.and_eq_false_iff,
        decide_eq_false_iff_not] at hno
      have hend2 : endsOpen (c :: tl) = false := by
        simpa [endsOpen, List.getLast?_cons_cons] using hend
      have hstep : ¬ (b = leftBrace ∧ c = leftBrace) := by
        intro hbc
        rcases hno.1 with h | h
        · exact h hbc.1
        · exact h hbc.2
      have h2 := ih (b :: acc) hno.2 hend2
      rw [List.cons_append] at h2
      show lex false acc (b :: c :: (tl ++ rest)) = _
      rw [lex, if_neg hstep, h2]
      simp

theorem lex_text_end (bs : List Byte) :
    ∀ acc : List Byte, noLeftDelim bs = true →
      lex false acc bs = .ok (emitText (bs.reverse ++ acc) []) := by
  induction bs with
  | nil => intro acc _; rfl
  | cons b tl ih =>
    intro acc hno
    cases tl with
    | nil => simp [lex]
    | cons c tl =>
      simp only [noLeftDelim, Bool.and_eq_true, Bool.not_eq_true', Bool.and_eq_false_iff,
        decide_eq_false_iff_not] at hno
      have hstep : ¬ (b = leftBrace ∧ c = leftBrace) := by
        intro hbc
        rcases hno.1 with h | h
        · exact h hbc.1
        · exact h hbc.2
      have h2 := ih (b :: acc) hno.2
      rw [lex, if_neg hstep, h2]
      simp

theorem lex_action (rest : List Byte) (bs : List Byte) :
    ∀ acc : List Byte, rightBrace ∉ bs →
      lex true acc (bs ++ rightBrace :: rightBrace :: rest) =
        match fieldAction (bs.reverse ++ acc).reverse with
        | none => .unmodelled
        | some name =>
          match lex false [] rest with
          | .ok nodes => .ok (Node.field name :: nodes)
          | r => r := by
  induction bs with
  | nil =>
    intro acc _
    simp [lex]
  | cons b tl ih =>
    intro acc hb
    simp only [List.mem_cons, not_or] at hb
    have h2 := ih (b :: acc) hb.2
    have hne : ¬ b = rightBrace := fun h => hb.1 h.symm
    cases tl with
    | nil =>
      simp only [List.nil_append] at h2
      show lex true acc (b :: rightBrace :: rightBrace :: rest) = _
      rw [lex, if_neg (fun h => hne h.1), h2]
      simp
    | cons c tl =>
      rw [List.cons_append] at h2
      show lex true acc (b :: c :: (tl ++ rightBrace :: rightBrace :: rest)) = _
      rw [lex, if_neg (fun h => hne h.1), h2]
      simp

theorem lex_placeholder (f : Field) (acc rest : List Byte) :
    lex false acc (placeholderText f ++ rest) =
      match lex false [] rest with
      | .ok nodes => .ok (emitText acc (.field f.name :: nodes))
      | r => r := by
  have h := lex_action rest (dot :: f.name) [] (Field.action f).1
  simp only [List.append_nil, List.reverse_reverse, (Field.action f).2] at h
  show lex false acc (leftBrace :: leftBrace :: ((dot :: (f.name ++ [rightBrace, rightBrace]))
    ++ rest)) = _
  have hsrc : (dot :: (f.name ++ [rightBrace, rightBrace])) ++ rest
      = (dot :: f.name) ++ rightBrace :: rightBrace :: rest := by simp
  rw [lex, if_pos ⟨rfl, rfl⟩, hsrc, h]
  cases lex false [] rest <;> rfl

theorem Execute_emitText (a : Filebase64OrPanicArgs) (acc : List Byte) (nodes : List Node) :
    Execute (emitText acc nodes) a =
      match Execute nodes a with
      | .ok out => .ok (acc.reverse ++ out)
      | r => r := by
  unfold emitText
  split
  · next h => subst h; cases Execute nodes a <;> rfl
  · rw [Execute]

/-- A template whose only actions are placeholders parses, and executing it writes the
pending text followed by the template with the placeholders replaced. -/
theorem lex_templateSource (a : Filebase64OrPanicArgs) (segs : List Segment) :
    ∀ acc : List Byte, placeholdersOnly segs = true →
      ∃ nodes, lex false acc (templateSource segs) = .ok nodes ∧
        Execute nodes a = .ok (acc.reverse ++ substitute a segs) := by
  induction segs with
  | nil =>
    intro acc _
    refine ⟨emitText acc [], rfl, ?_⟩
    rw [Execute_emitText]
    rfl
  | cons seg rest ih =>
    intro acc hwf
    cases seg with
    | text bs =>
      simp only [placeholdersOnly, Bool.and_eq_true, Bool.or_eq_true, Bool.not_eq_true',
        List.isEmpty_iff] at hwf
      obtain ⟨⟨hno, hend⟩, hrest⟩ := hwf
      rcases hend with hend | hnil
      · obtain ⟨nodes, hlex, hexec⟩ := ih (bs.reverse ++ acc) hrest
        refine ⟨nodes, ?_, ?_⟩
        · simp only [templateSource]
          rw [lex_text_append _ _ _ hno hend, hlex]
        · rw [hexec]
          simp [substitute]
      · subst hnil
        refine ⟨emitText (bs.reverse ++ acc) [], ?_, ?_⟩
        · simp only [templateSource, List.append_nil]
          exact lex_text_end bs acc hno
        · rw [Execute_emitText]
          simp [Execute, substitute]
    | placeholder f =>
      simp only [placeholdersOnly] at hwf
      obtain ⟨nodes, hlex, hexec⟩ := ih [] hwf
      refine ⟨emitText acc (.field f.name :: nodes), ?_, ?_⟩
      · simp only [templateSource]
        rw [lex_placeholder, hlex]
      · rw [Execute_emitText, Execute, Field.lookup, hexec]
        simp [substitute]

theorem noLeftDelim_append (x y : List Byte) (hx : noLeftDelim x = true)
    (hend : endsOpen x = false) (hy : noLeftDelim y = true) : noLeftDelim (x ++ y) = true := by
  induction x with
  | nil => simpa using hy
  | cons b tl ih =>
    cases tl with
    | nil =>
      have hb : b ≠ leftBrace := by
        intro hb
        simp [endsOpen, hb] at hend
      cases y with
      | nil => rfl
      | cons c y =>
        show noLeftDelim (b :: c :: y) = true
        simp [noLeftDelim, hb, hy]
    | cons c tl =>
      simp only [noLeftDelim, Bool.and_eq_true] at hx
      have hend2 : endsOpen (c :: tl) = false := by
        simpa [endsOpen, List.getLast?_cons_cons] using hend
      have h2 := ih hx.2 hend2
      show noLeftDelim (b :: c :: (tl ++ y)) = true
      rw [List.cons_append] at h2
      simp only [noLeftDelim, Bool.and_eq_true]
      exact ⟨hx.1, h2⟩

theorem noLeftDelim_of_not_mem (x : List Byte) (hx : leftBrace ∉ x) :
    noLeftDelim x = true ∧ endsOpen x = false := by
  induction x with
  | nil => exact ⟨rfl, rfl⟩
  | cons b tl ih =>
    simp only [List.mem_cons, not_or] at hx
    have hb : ¬ b = leftBrace := fun h => hx.1 h.symm
    cases tl with
    | nil => simp [noLeftDelim, endsOpen, hb]
    | cons c tl =>
      have h2 := ih hx.2
      refine ⟨?_, ?_⟩
      · simp [noLeftDelim, hb, h2.1]
      · simpa [endsOpen, List.getLast?_cons_cons] using h2.2

theorem noLeftDelim_value_append (x y : List Byte) (hx : leftBrace ∉ x)
    (hy : noLeftDelim y = true) : noLeftDelim (x ++ y) = true :=
  noLeftDelim_append x y (noLeftDelim_of_not_mem x hx).1 (noLeftDelim_of_not_mem x hx).2 hy

/-- When no field value holds a left brace, the substituted text holds no left delimiter. -/
theorem noLeftDelim_substitute (a : Filebase64OrPanicArgs) (segs : List Segment)
    (hwf : placeholdersOnly segs = true) (ha : ∀ f : Field, leftBrace ∉ f.value a) :
    noLeftDelim (substitute a segs) = true := by
  induction segs with
  | nil => rfl
  | cons seg rest ih =>
    cases seg with
    | text bs =>
      simp only [placeholdersOnly, Bool.and_eq_true, Bool.or_eq_true, Bool.not_eq_true',
        List.isEmpty_iff] at hwf
      obtain ⟨⟨hno, hend⟩, hrest⟩ := hwf
      rcases hend with hend | hnil
      · exact noLeftDelim_append bs _ hno hend (ih hrest)
      · subst hnil
        simpa [substitute] using hno
    | placeholder f =>
      simp only [placeholdersOnly] at hwf
      exact noLeftDelim_value_append _ _ (ha f) (ih hwf)

/-- Every event of a successful build. -/
theorem NewService_success (fs : FileSystem) (ctx : Context) (name : GoString)
    (args : ServiceArgs) (opts : List ResourceOption) (w w' : World) (s : Option Service)
    (h : NewService fs ctx name (some args) opts w = (.ret (s, none), w')) :
    ∃ contents bucket bucketObject function iam api apiConfig gateway,
      s = some ⟨w.heap⟩ ∧
      (filebase64OrPanic fs (openapiRequest args) emptyWorld).1 = .ret contents ∧
      w'.log = w.log ++
        (.RegisterComponentResource (ascii "bluprince13:gcp:Service") name ⟨w.heap⟩ opts none ::
          (declaredTopology ⟨w.heap⟩ args contents bucket bucketObject function iam api
              apiConfig gateway).take 5) ++
        (.ReadFile (ascii "openapi.yaml") (fs (ascii "openapi.yaml")) ::
          (declaredTopology ⟨w.heap⟩ args contents bucket bucketObject function iam api
              apiConfig gateway).drop 5) ++
        [.Export (ascii "url") gateway.DefaultHostname] := by
  unfold NewService at h
  simp only [RegisterComponentResource, NewBucket, NewBucketObject, NewFunction,
    NewFunctionIamMember, NewApi, NewApiConfig, NewGateway, Export] at h
  repeat' split at h
  all_goals simp only [Prod.mk.injEq, filebase64OrPanic_eq_iff, Outcome.ret.injEq,
    reduceCtorEq, false_and, and_false] at *
  all_goals cases_type* And
  all_goals simp_all only []
  all_goals subst_vars
  refine ⟨?c, ?b, ?bo, ?f, ?i, ?a, ?ac, ?g, ?hs, ?h1, ?h2⟩
  case hs => first | rfl | trivial
  case h1 => assumption
  case h2 =>
    simp only [World.record, declaredTopology, List.take, List.drop, List.append_assoc,
      List.cons_append, List.nil_append]
    exact rfl

/-- What every run of `NewService` that gets past validation does. -/
theorem NewService_run (fs : FileSystem) (ctx : Context) (name : GoString)
    (args : ServiceArgs) (opts : List ResourceOption) (w w' : World)
    (o : Outcome (Option Service × Option Error))
    (hProject : args.Project ≠ []) (hRegion : args.Region ≠ []) (hPath : args.Path ≠ [])
    (h : NewService fs ctx name (some args) opts w = (o, w')) :
    ∃ evs, w'.log = w.log ++ evs ∧
      evs.filterMap Event.registered
        = [(ascii "bluprince13:gcp:Service", name, ⟨w.heap⟩, opts)] ∧
      (∀ ev ∈ evs, ∀ os, ev.declOpts = some os → os = [.Parent ⟨w.heap⟩]) ∧
      (∀ ev ∈ evs, ∀ e, ev.declError = some e → o = .panic e) ∧
      (∀ s e, o = .ret (s, some e) →
        s = none ∧ evs.filterMap Event.exported = [] ∧
          ctx.RegisterComponentResource w.log (ascii "bluprince13:gcp:Service") name
            ⟨w.heap⟩ opts = some e) ∧
      (∀ e, ctx.RegisterComponentResource w.log (ascii "bluprince13:gcp:Service") name
            ⟨w.heap⟩ opts = some e → o = .ret (none, some e)) ∧
      ((∀ ev ∈ evs, ev.engineAccepted = true) →
        (∃ c, (filebase64OrPanic fs (openapiRequest args) emptyWorld).1 = .ret c) →
        ∃ s, o = .ret (s, none)) := by
  unfold NewService at h
  simp only [hProject, hRegion, hPath, if_false, RegisterComponentResource, NewBucket, NewBucketObject, NewFunction,
    NewFunctionIamMember, NewApi, NewApiConfig, NewGateway, Export] at h
  repeat' split at h
  all_goals simp only [Prod.mk.injEq, filebase64OrPanic_eq_iff, Outcome.ret.injEq,
    reduceCtorEq, false_and, and_false] at *
  all_goals cases_type* And
  all_goals simp_all only [openapiRequest]
  all_goals subst_vars
  all_goals
    refine ⟨?_, ?_, ?_⟩
    rotate_left
    · simp only [World.record, List.append_assoc, List.cons_append, List.nil_append]
      exact rfl
    · simp only [openapiRequest, Event.registered, Event.declOpts, Event.declError,
        Event.exported, Event.engineAccepted, Except.isOk, Except.toBool, List.filterMap_cons,
        List.filterMap_nil, List.mem_cons, List.mem_singleton, forall_eq_or_imp, forall_eq,
        Option.some.injEq, reduceCtorEq, List.not_mem_nil, Outcome.ret.injEq, Prod.mk.injEq,
        false_implies, implies_true, true_and, and_true, false_and, and_false, Option.isNone,
        Bool.false_eq_true, forall_const, exists_const, exists_false, not_false_eq_true,
        IsEmpty.forall_iff, and_self, true_implies, forall_eq', exists_eq', exists_eq]
      try (rintro s e ⟨rfl, rfl⟩; exact ⟨rfl, rfl⟩)

theorem NewService_events_eq (fs : FileSystem) (ctx : Context) (name : GoString)
    (args : Option ServiceArgs) (opts : List ResourceOption) (w w' : World)
    (o : Outcome (Option Service × Option Error)) (evs : List Event)
    (h : NewService fs ctx name args opts w = (o, w')) (hlog : w'.log = w.log ++ evs) :
    NewService.events fs ctx name args opts w = evs := by
  unfold NewService.events
  rw [h]
  simp [hlog]

/-- A call with a missing argument returns an error at once and leaves the state as it was. -/
theorem NewService_invalid (fs : FileSystem) (ctx : Context) (name : GoString)
    (args : Option ServiceArgs) (opts : List ResourceOption) (w : World)
    (h : args = none ∨ ∃ a, args = some a ∧ (a.Project = [] ∨ a.Region = [] ∨ a.Path = [])) :
    ∃ e, NewService fs ctx name args opts w = (.ret (none, some e), w) := by
  rcases h with h | ⟨a, h, hempty⟩
  · subst h
    exact ⟨_, rfl⟩
  · subst h
    unfold NewService
    by_cases hProject : a.Project = []
    · exact ⟨"missing project argument", by simp [hProject]⟩
    · by_cases hRegion : a.Region = []
      · exact ⟨"missing region argument", by simp [hProject, hRegion]⟩
      · have hPath : a.Path = [] := by
          rcases hempty with h | h | h
          · exact absurd h hProject
          · exact absurd h hRegion
          · exact h
        exact ⟨"missing path argument", by simp [hProject, hRegion, hPath]⟩

/-- A call with a missing argument makes no call to the outside. -/
theorem NewService_invalid_events (fs : FileSystem) (ctx : Context) (name : GoString)
    (args : Option ServiceArgs) (opts : List ResourceOption) (w : World)
    (h : args = none ∨ ∃ a, args = some a ∧ (a.Project = [] ∨ a.Region = [] ∨ a.Path = [])) :
    (∃ e, (NewService fs ctx name args opts w).1 = .ret (none, some e)) ∧
      NewService.events fs ctx name args opts w = [] := by
  obtain ⟨e, he⟩ := NewService_invalid fs ctx name args opts w h
  exact ⟨⟨e, by rw [he]⟩, NewService_events_eq fs ctx name args opts w w _ [] he (by simp)⟩

theorem Event.declOpts_of_isDeclaration (ev : Event) (h : ev.isDeclaration = true) :
    ∃ os, ev.declOpts = some os := by
  cases ev <;> simp [Event.isDeclaration, Event.declOpts] at h ⊢

/-- The events of a successful build, in terms of `NewService.events`. -/
theorem NewService_success_events (fs : FileSystem) (ctx : Context) (name : GoString)
    (args : ServiceArgs) (opts : List ResourceOption) (w : World) (s : Option Service)
    (h : (NewService fs ctx name (some args) opts w).1 = .ret (s, none)) :
    ∃ buf bucket bucketObject function iam api apiConfig gateway,
      s = some ⟨w.heap⟩ ∧
      (filebase64OrPanic fs (openapiRequest args) emptyWorld).1
        = .ret (.lit (EncodeToString buf)) ∧
      NewService.events fs ctx name (some args) opts w =
        (.RegisterComponentResource (ascii "bluprince13:gcp:Service") name ⟨w.heap⟩ opts none ::
          (declaredTopology ⟨w.heap⟩ args (.lit (EncodeToString buf)) bucket bucketObject
              function iam api apiConfig gateway).take 5) ++
        (.ReadFile (ascii "openapi.yaml") (fs (ascii "openapi.yaml")) ::
          (declaredTopology ⟨w.heap⟩ args (.lit (EncodeToString buf)) bucket bucketObject
              function iam api apiConfig gateway).drop 5) ++
        [.Export (ascii "url") gateway.DefaultHostname] := by
  cases hrun : NewService fs ctx name (some args) opts w with
  | mk o w' =>
    rw [hrun] at h
    simp only at h
    subst h
    obtain ⟨contents, bucket, bucketObject, function, iam, api, apiConfig, gateway, hs, hc,
      hlog⟩ := NewService_success fs ctx name args opts w w' s hrun
    obtain ⟨_, _, buf, _, _, _, hbuf⟩ := filebase64OrPanic_ret fs _ _ _ hc
    subst hbuf
    refine ⟨buf, bucket, bucketObject, function, iam, api, apiConfig, gateway, hs, hc, ?_⟩
    apply NewService_events_eq fs ctx name (some args) opts w w' _ _ hrun
    rw [hlog]
    simp only [List.append_assoc]

/-- The facts of `NewService_run`, in terms of `NewService.events`. -/
theorem NewService_run_events (fs : FileSystem) (ctx : Context) (name : GoString)
    (args : ServiceArgs) (opts : List ResourceOption) (w : World)
    (hProject : args.Project ≠ []) (hRegion : args.Region ≠ []) (hPath : args.Path ≠ []) :
    (NewService.events fs ctx name (some args) opts w).filterMap Event.registered
      = [(ascii "bluprince13:gcp:Service", name, ⟨w.heap⟩, opts)] ∧
    (∀ ev ∈ NewService.events fs ctx name (some args) opts w,
      ∀ os, ev.declOpts = some os → os = [.Parent ⟨w.heap⟩]) ∧
    (∀ ev ∈ NewService.events fs ctx name (some args) opts w,
      ∀ e, ev.declError = some e → (NewService fs ctx name (some args) opts w).1 = .panic e) ∧
    (∀ s e, (NewService fs ctx name (some args) opts w).1 = .ret (s, some e) →
      s = none ∧
        (NewService.events fs ctx name (some args) opts w).filterMap Event.exported = [] ∧
        ctx.RegisterComponentResource w.log (ascii "bluprince13:gcp:Service") name
          ⟨w.heap⟩ opts = some e) ∧
    (∀ e, ctx.RegisterComponentResource w.log (ascii "bluprince13:gcp:Service") name
          ⟨w.heap⟩ opts = some e →
      (NewService fs ctx name (some args) opts w).1 = .ret (none, some e)) ∧
    ((∀ ev ∈ NewService.events fs ctx name (some args) opts w, ev.engineAccepted = true) →
      (∃ c, (filebase64OrPanic fs (openapiRequest args) emptyWorld).1 = .ret c) →
      ∃ s, (NewService fs ctx name (some args) opts w).1 = .ret (s, none)) := by
  cases hrun : NewService fs ctx name (some args) opts w with
  | mk o w' =>
    obtain ⟨evs, hlog, hrest⟩ :=
      NewService_run fs ctx name args opts w w' o hProject hRegion hPath hrun
    have hevs := NewService_events_eq fs ctx name (some args) opts w w' o evs hrun hlog
    rw [hevs]
    exact hrest

/-- C1. When `args` is nil, or one of `Project`, `Region`, `Path` is the empty string,
`NewService` returns a nil service and a non-nil error, whatever the context, the name and
the options; and it does so before any interaction with the outside: the state after the
call is the state before it, so no component or resource was registered, no template was
read and nothing was exported. -/
theorem NewService_missing_argument_no_calls (fs : FileSystem) (ctx : Context)
    (name : GoString) (args : Option ServiceArgs) (opts : List ResourceOption) (w : World)
    (h : args = none ∨ ∃ a, args = some a ∧ (a.Project = [] ∨ a.Region = [] ∨ a.Path = [])) :
    (∃ e, (NewService fs ctx name args opts w).1 = .ret (none, some e)) ∧
      (NewService fs ctx name args opts w).2 = w ∧
      NewService.events fs ctx name args opts w = [] := by
  obtain ⟨e, he⟩ := NewService_invalid fs ctx name args opts w h
  refine ⟨⟨e, by rw [he]⟩, by rw [he], ?_⟩
  exact NewService_events_eq fs ctx name args opts w w _ [] he (by simp)

/-- Witness for C1: an empty region, with an engine and a file system that would accept
everything. -/
theorem NewService_missing_argument_no_calls_witness :
    (∃ e, (NewService sampleFiles acceptAll (ascii "svc")
        (some { Project := ascii "proj", Region := [], Path := ascii "pkg/helloworld" })
        [] emptyWorld).1 = .ret (none, some e)) ∧
      (NewService sampleFiles acceptAll (ascii "svc")
        (some { Project := ascii "proj", Region := [], Path := ascii "pkg/helloworld" })
        [] emptyWorld).2 = emptyWorld ∧
      NewService.events sampleFiles acceptAll (ascii "svc")
        (some { Project := ascii "proj", Region := [], Path := ascii "pkg/helloworld" })
        [] emptyWorld = [] :=
  NewService_missing_argument_no_calls sampleFiles acceptAll (ascii "svc") _ [] emptyWorld
    (Or.inr ⟨_, rfl, Or.inr (Or.inl rfl)⟩)

/-- The four validation returns of `NewService`, with their messages. -/
theorem NewService_validation (fs : FileSystem) (ctx : Context) (name : GoString)
    (opts : List ResourceOption) (w : World) :
    NewService fs ctx name none opts w
      = (.ret (none, some "missing one or more required arguments"), w) ∧
    ∀ a : ServiceArgs,
      (a.Project = [] → NewService fs ctx name (some a) opts w
        = (.ret (none, some "missing project argument"), w)) ∧
      (a.Project ≠ [] → a.Region = [] → NewService fs ctx name (some a) opts w
        = (.ret (none, some "missing region argument"), w)) ∧
      (a.Project ≠ [] → a.Region ≠ [] → a.Path = [] → NewService fs ctx name (some a) opts w
        = (.ret (none, some "missing path argument"), w)) := by
  constructor
  · rfl
  · intro a
    refine ⟨?_, ?_, ?_⟩
    · intro h1
      unfold NewService
      simp [h1]
    · intro h1 h2
      unfold NewService
      simp [h1, h2]
    · intro h1 h2 h3
      unfold NewService
      simp [h1, h2, h3]

/-- A run that is known to return a nil service and the error `m` returns no other pair. -/
theorem ret_error_iff (o : Outcome (Option Service × Option Error)) (w : World) (m : Error)
    (x : Outcome (Option Service × Option Error) × World) (hx : x = (o, w))
    (ho : o = .ret (none, some m)) (s : Option Service) (e : Error) :
    x.1 = .ret (s, some e) ↔ s = none ∧ e = m := by
  subst hx
  subst ho
  simp only [Outcome.ret.injEq, Prod.mk.injEq, Option.some.injEq]
  constructor
  · rintro ⟨h1, h2⟩
    exact ⟨h1.symm, h2.symm⟩
  · rintro ⟨h1, h2⟩
    exact ⟨h1.symm, h2.symm⟩

/-- C3, counterexample. With all three arguments non-empty, on a context on which the call
`ctx.RegisterComponentResource` returns an error, `NewService` returns a non-nil error: an
error return outside the four validation cases. -/
theorem NewService_error_outside_validation :
    sampleArgs.Project ≠ [] ∧ sampleArgs.Region ≠ [] ∧ sampleArgs.Path ≠ [] ∧
    (NewService sampleFiles registrationFails (ascii "svc") (some sampleArgs) []
        emptyWorld).1 = .ret (none, some "registration failed") := by
  decide

/-- C3, amended. `NewService` returns a non-nil error in exactly five cases, each time with
a nil service: `args` is nil, `Project` is empty, `Region` is empty, `Path` is empty (each
with the fixed message of its check, the checks being made in that order), or the call
`ctx.RegisterComponentResource` returns an error, and then the error `NewService` returns
is that very error.  Every error returned by the call of one of the seven resource
constructors makes `NewService` panic with that error. -/
theorem NewService_error_cases (fs : FileSystem) (ctx : Context) (name : GoString)
    (args : Option ServiceArgs) (opts : List ResourceOption) (w : World) :
    (∀ s e, (NewService fs ctx name args opts w).1 = .ret (s, some e) ↔
      s = none ∧
        ((args = none ∧ e = "missing one or more required arguments") ∨
          ∃ a, args = some a ∧
            ((a.Project = [] ∧ e = "missing project argument") ∨
              (a.Project ≠ [] ∧ a.Region = [] ∧ e = "missing region argument") ∨
              (a.Project ≠ [] ∧ a.Region ≠ [] ∧ a.Path = [] ∧
                e = "missing path argument") ∨
              (a.Project ≠ [] ∧ a.Region ≠ [] ∧ a.Path ≠ [] ∧
                ctx.RegisterComponentResource w.log (ascii "bluprince13:gcp:Service") name
                  ⟨w.heap⟩ opts = some e)))) ∧
    (∀ ev ∈ NewService.events fs ctx name args opts w, ∀ e, ev.declError = some e →
      (NewService fs ctx name args opts w).1 = .panic e) := by
  obtain ⟨hnil, hval⟩ := NewService_validation fs ctx name opts w
  cases args with
  | none =>
    refine ⟨fun s e => ?_, ?_⟩
    · rw [ret_error_iff _ w _ _ hnil rfl s e]
      constructor
      · rintro ⟨h1, h2⟩
        exact ⟨h1, Or.inl ⟨rfl, h2⟩⟩
      · rintro ⟨h1, h2 | ⟨a, h2, _⟩⟩
        · exact ⟨h1, h2.2⟩
        · cases h2
    · rw [(NewService_invalid_events fs ctx name none opts w (Or.inl rfl)).2]
      intro ev hev
      simp at hev
  | some a =>
    obtain ⟨hP, hR, hPa⟩ := hval a
    by_cases hProject : a.Project = []
    · refine ⟨fun s e => ?_, ?_⟩
      · rw [ret_error_iff _ w _ _ (hP hProject) rfl s e]
        constructor
        · rintro ⟨h1, h2⟩
          exact ⟨h1, Or.inr ⟨a, rfl, Or.inl ⟨hProject, h2⟩⟩⟩
        · rintro ⟨h1, h2 | ⟨a', h2, h3⟩⟩
          · cases h2.1
          · cases h2
            rcases h3 with h | h | h | h
            · exact ⟨h1, h.2⟩
            · exact absurd hProject h.1
            · exact absurd hProject h.1
            · exact absurd hProject h.1
      · rw [(NewService_invalid_events fs ctx name (some a) opts w
          (Or.inr ⟨a, rfl, Or.inl hProject⟩)).2]
        intro ev hev
        simp at hev
    · by_cases hRegion : a.Region = []
      · refine ⟨fun s e => ?_, ?_⟩
        · rw [ret_error_iff _ w _ _ (hR hProject hRegion) rfl s e]
          constructor
          · rintro ⟨h1, h2⟩
            exact ⟨h1, Or.inr ⟨a, rfl, Or.inr (Or.inl ⟨hProject, hRegion, h2⟩)⟩⟩
          · rintro ⟨h1, h2 | ⟨a', h2, h3⟩⟩
            · cases h2.1
            · cases h2
              rcases h3 with h | h | h | h
              · exact absurd h.1 hProject
              · exact ⟨h1, h.2.2⟩
              · exact absurd hRegion h.2.1
              · exact absurd hRegion h.2.1
        · rw [(NewService_invalid_events fs ctx name (some a) opts w
            (Or.inr ⟨a, rfl, Or.inr (Or.inl hRegion)⟩)).2]
          intro ev hev
          simp at hev
      · by_cases hPath : a.Path = []
        · refine ⟨fun s e => ?_, ?_⟩
          · rw [ret_error_iff _ w _ _ (hPa hProject hRegion hPath) rfl s e]
            constructor
            · rintro ⟨h1, h2⟩
              exact ⟨h1, Or.inr ⟨a, rfl,
                Or.inr (Or.inr (Or.inl ⟨hProject, hRegion, hPath, h2⟩))⟩⟩
            · rintro ⟨h1, h2 | ⟨a', h2, h3⟩⟩
              · cases h2.1
              · cases h2
                rcases h3 with h | h | h | h
                · exact absurd h.1 hProject
                · exact absurd h.2.1 hRegion
                · exact ⟨h1, h.2.2.2⟩
                · exact absurd hPath h.2.2.1
          · rw [(NewService_invalid_events fs ctx name (some a) opts w
              (Or.inr ⟨a, rfl, Or.inr (Or.inr hPath)⟩)).2]
            intro ev hev
            simp at hev
        · obtain ⟨_, _, hpanic, herr, hreg, _⟩ :=
            NewService_run_events fs ctx name a opts w hProject hRegion hPath
          refine ⟨fun s e => ⟨fun h => ?_, ?_⟩, hpanic⟩
          · obtain ⟨hs, _, hr⟩ := herr s e h
            exact ⟨hs, Or.inr ⟨a, rfl,
              Or.inr (Or.inr (Or.inr ⟨hProject, hRegion, hPath, hr⟩))⟩⟩
          · rintro ⟨h1, h2 | ⟨a', h2, h3⟩⟩
            · cases h2.1
            · cases h2
              subst h1
              rcases h3 with h | h | h | h
              · exact absurd h.1 hProject
              · exact absurd h.2.1 hRegion
              · exact absurd h.2.2.1 hPath
              · exact hreg e h.2.2.2

/-- Two instances of C3: when the call `apigateway.NewGateway`, the last of the seven
constructor calls, returns an error, `NewService` panics with that error; and when the call
`ctx.RegisterComponentResource` returns an error, `NewService` returns a nil service and
that error. -/
theorem NewService_error_cases_witness :
    (NewService sampleFiles gatewayFails (ascii "svc") (some sampleArgs) [] emptyWorld).1
      = .panic "gateway failed" ∧
    (NewService sampleFiles registrationFails (ascii "svc") (some sampleArgs) []
        emptyWorld).1 = .ret (none, some "registration failed") :=
  ⟨(NewService_error_cases sampleFiles gatewayFails (ascii "svc") (some sampleArgs) []
      emptyWorld).2
    (.NewGateway (ascii "gateway")
      { ApiConfig := .out ⟨70⟩, GatewayId := .lit (ascii "gateway") } [.Parent ⟨0⟩]
      (.error "gateway failed"))
    (by decide) "gateway failed" rfl,
   ((NewService_error_cases sampleFiles registrationFails (ascii "svc") (some sampleArgs) []
      emptyWorld).1 none "registration failed").2
    ⟨rfl, Or.inr ⟨sampleArgs, rfl, Or.inr (Or.inr (Or.inr
      ⟨by decide, by decide, by decide, rfl⟩))⟩⟩⟩

/-- C4, counterexample. The engine accepts every call and all three arguments are
non-empty, but the template file cannot be read: `filebase64OrPanic` panics after the
fifth declaration, so the API config and the gateway are never declared. -/
theorem declarations_stop_without_template :
    sampleArgs.Project ≠ [] ∧ sampleArgs.Region ≠ [] ∧ sampleArgs.Path ≠ [] ∧
    (∀ ev ∈ NewService.events noFiles acceptAll (ascii "svc") (some sampleArgs) [] emptyWorld,
      ev.engineAccepted = true) ∧
    (NewService noFiles acceptAll (ascii "svc") (some sampleArgs) [] emptyWorld).1
      = .panic "no such file or directory" ∧
    ((NewService.events noFiles acceptAll (ascii "svc") (some sampleArgs) []
        emptyWorld).filter Event.isDeclaration).length = 5 := by
  decide

/-- C4, amended. For non-empty `Project`, `Region` and `Path`, when the engine accepts
every call of the run and the template `openapi.yaml` is read, parsed and executed without
error, `NewService` returns the handle with a nil error, and the resource declarations it
submits are exactly `declaredTopology`: storage bucket, bucket object, cloud function,
function IAM member, API, API config, gateway, in that order and each once.  Every engine
output a declaration consumes is an output of a declaration strictly earlier in the
sequence (`dependenciesEarlier`); in `declaredTopology` the bucket object's `Bucket` is the
`Name` of the bucket declared immediately before it. -/
theorem NewService_declaration_order (fs : FileSystem) (ctx : Context) (name : GoString)
    (args : ServiceArgs) (opts : List ResourceOption) (w : World)
    (hProject : args.Project ≠ []) (hRegion : args.Region ≠ []) (hPath : args.Path ≠ [])
    (hEngine : ∀ ev ∈ NewService.events fs ctx name (some args) opts w,
      ev.engineAccepted = true)
    (hTemplate : ∃ c, (filebase64OrPanic fs (openapiRequest args) w).1 = .ret c) :
    ∃ contents bucket bucketObject function iam api apiConfig gateway,
      (NewService fs ctx name (some args) opts w).1 = .ret (some ⟨w.heap⟩, none) ∧
      (NewService.events fs ctx name (some args) opts w).filter Event.isDeclaration
        = declaredTopology ⟨w.heap⟩ args contents bucket bucketObject function iam api
            apiConfig gateway ∧
      dependenciesEarlier []
        ((NewService.events fs ctx name (some args) opts w).filter Event.isDeclaration)
        = true := by
  obtain ⟨c, hc⟩ := hTemplate
  rw [filebase64OrPanic_outcome fs _ w emptyWorld] at hc
  obtain ⟨_, _, _, _, _, hsucc⟩ :=
    NewService_run_events fs ctx name args opts w hProject hRegion hPath
  obtain ⟨s, hs⟩ := hsucc hEngine ⟨c, hc⟩
  obtain ⟨buf, bucket, bucketObject, function, iam, api, apiConfig, gateway, hsome, _, hevs⟩ :=
    NewService_success_events fs ctx name args opts w s hs
  subst hsome
  refine ⟨.lit (EncodeToString buf), bucket, bucketObject, function, iam, api, apiConfig,
    gateway, hs, ?_, ?_⟩
  · rw [hevs]
    simp [declaredTopology, Event.isDeclaration]
  · rw [hevs]
    simp [declaredTopology, Event.isDeclaration, dependenciesEarlier, Event.consumes,
      Event.produces, outputsOf]

/-- Witness for C4: the sample template and an engine that accepts everything. -/
theorem NewService_declaration_order_witness :
    ∃ contents bucket bucketObject function iam api apiConfig gateway,
      (NewService sampleFiles acceptAll (ascii "svc") (some sampleArgs) [] emptyWorld).1
        = .ret (some ⟨0⟩, none) ∧
      (NewService.events sampleFiles acceptAll (ascii "svc") (some sampleArgs) []
          emptyWorld).filter Event.isDeclaration
        = declaredTopology ⟨0⟩ sampleArgs contents bucket bucketObject function iam api
            apiConfig gateway ∧
      dependenciesEarlier []
        ((NewService.events sampleFiles acceptAll (ascii "svc") (some sampleArgs) []
          emptyWorld).filter Event.isDeclaration) = true :=
  NewService_declaration_order sampleFiles acceptAll (ascii "svc") sampleArgs [] emptyWorld
    (by decide) (by decide) (by decide) (by decide)
    ⟨.lit (EncodeToString (substitute (openapiRequest sampleArgs) sampleSegments)), by decide⟩

/-- C5. In every successful build exactly one IAM grant is declared.  Its role is the
fixed string `roles/cloudfunctions.invoker`, its member the fixed principal `allUsers`,
and its `Project` and `CloudFunction` are the `Project` and `Name` outputs of the one
function the build declared; none of the four depends on the values in `ServiceArgs`. -/
theorem NewService_iam_grant (fs : FileSystem) (ctx : Context) (name : GoString)
    (args : Option ServiceArgs) (opts : List ResourceOption) (w : World) (s : Option Service)
    (h : (NewService fs ctx name args opts w).1 = .ret (s, none)) :
    ∃ function,
      (NewService.events fs ctx name args opts w).filterMap Event.functionReply
        = [.ok function] ∧
      (NewService.events fs ctx name args opts w).filterMap Event.iamMemberArgs
        = [{ Project := .out function.Project,
             CloudFunction := .out function.Name,
             Role := .lit (ascii "roles/cloudfunctions.invoker"),
             Member := .lit (ascii "allUsers") }] := by
  cases args with
  | none => simp [NewService] at h
  | some a =>
    obtain ⟨buf, bucket, bucketObject, function, iam, api, apiConfig, gateway, _, _, hevs⟩ :=
      NewService_success_events fs ctx name a opts w s h
    refine ⟨function, ?_, ?_⟩
    · rw [hevs]
      simp [declaredTopology, Event.functionReply]
    · rw [hevs]
      simp [declaredTopology, Event.iamMemberArgs]

/-- Witness for C5: the end-to-end example. -/
theorem NewService_iam_grant_witness :
    ∃ function,
      (NewService.events sampleFiles acceptAll (ascii "svc") (some sampleArgs) []
          emptyWorld).filterMap Event.functionReply = [.ok function] ∧
      (NewService.events sampleFiles acceptAll (ascii "svc") (some sampleArgs) []
          emptyWorld).filterMap Event.iamMemberArgs
        = [{ Project := .out function.Project,
             CloudFunction := .out function.Name,
             Role := .lit (ascii "roles/cloudfunctions.invoker"),
             Member := .lit (ascii "allUsers") }] :=
  NewService_iam_grant sampleFiles acceptAll (ascii "svc") (some sampleArgs) [] emptyWorld
    (some ⟨0⟩) (by decide)

/-- C6. A `NewService` call that returns a nil error has recorded exactly one export, named
`url`, whose value is the `DefaultHostname` output of the one gateway the build declared.
A call that returns a non-nil error has recorded no export. -/
theorem NewService_export (fs : FileSystem) (ctx : Context) (name : GoString)
    (args : Option ServiceArgs) (opts : List ResourceOption) (w : World) :
    (∀ s, (NewService fs ctx name args opts w).1 = .ret (s, none) →
      ∃ gateway,
        (NewService.events fs ctx name args opts w).filterMap Event.gatewayReply
          = [.ok gateway] ∧
        (NewService.events fs ctx name args opts w).filterMap Event.exported
          = [(ascii "url", gateway.DefaultHostname)]) ∧
    (∀ s e, (NewService fs ctx name args opts w).1 = .ret (s, some e) →
      (NewService.events fs ctx name args opts w).filterMap Event.exported = []) := by
  constructor
  · intro s h
    cases args with
    | none => simp [NewService] at h
    | some a =>
      obtain ⟨buf, bucket, bucketObject, function, iam, api, apiConfig, gateway, _, _, hevs⟩ :=
        NewService_success_events fs ctx name a opts w s h
      refine ⟨gateway, ?_, ?_⟩
      · rw [hevs]
        simp [declaredTopology, Event.gatewayReply]
      · rw [hevs]
        simp [declaredTopology, Event.exported]
  · intro s e h
    by_cases hinv : args = none ∨
        ∃ a, args = some a ∧ (a.Project = [] ∨ a.Region = [] ∨ a.Path = [])
    · rw [(NewService_invalid_events fs ctx name args opts w hinv).2]
      rfl
    · cases args with
      | none => exact absurd (Or.inl rfl) hinv
      | some a =>
        have hProject : a.Project ≠ [] := fun h => hinv (Or.inr ⟨a, rfl, Or.inl h⟩)
        have hRegion : a.Region ≠ [] := fun h => hinv (Or.inr ⟨a, rfl, Or.inr (Or.inl h)⟩)
        have hPath : a.Path ≠ [] := fun h => hinv (Or.inr ⟨a, rfl, Or.inr (Or.inr h)⟩)
        obtain ⟨_, _, _, herr, _, _⟩ :=
          NewService_run_events fs ctx name a opts w hProject hRegion hPath
        exact (herr s e h).2.1

/-- An instance of C6: the end-to-end example exports the hostname the engine handed back
for the gateway, and a build whose registration call returns an error exports nothing. -/
theorem NewService_export_witness :
    (NewService.events sampleFiles acceptAll (ascii "svc") (some sampleArgs) []
        emptyWorld).filterMap Event.exported = [(ascii "url", ⟨80⟩)] ∧
    (NewService.events sampleFiles registrationFails (ascii "svc") (some sampleArgs) []
        emptyWorld).filterMap Event.exported = [] :=
  have h := NewService_export sampleFiles acceptAll (ascii "svc") (some sampleArgs) []
    emptyWorld
  have h2 := NewService_export sampleFiles registrationFails (ascii "svc") (some sampleArgs)
    [] emptyWorld
  ⟨match h.1 (some ⟨0⟩) (by decide) with
    | ⟨gateway, hg, hx⟩ => by
      have hgw : gateway = ⟨⟨80⟩⟩ := by
        have hd : (NewService.events sampleFiles acceptAll (ascii "svc") (some sampleArgs) []
            emptyWorld).filterMap Event.gatewayReply = [.ok ⟨⟨80⟩⟩] := by decide
        rw [hd] at hg
        simpa using hg.symm
      rw [hx, hgw],
   h2.2 none "registration failed" (by decide)⟩

/-- C8. For a template whose only actions are placeholders of the four fields, stored at
`args.Path`, `filebase64OrPanic` returns, and the text decoded from its result is the
template with every occurrence of each placeholder replaced by the corresponding field of
the request, verbatim, and every other byte unchanged.  When no field value holds a left
brace, no left delimiter, hence no placeholder, remains in the decoded text. -/
theorem filebase64OrPanic_substitutes (fs : FileSystem) (args : Filebase64OrPanicArgs)
    (w : World) (segs : List Segment) (hsegs : placeholdersOnly segs = true)
    (hfile : fs args.Path = .ok (templateSource segs)) :
    ∃ enc, (filebase64OrPanic fs args w).1 = .ret (.lit enc) ∧
      DecodeString enc = some (substitute args segs) ∧
      ((∀ f : Field, leftBrace ∉ f.value args) →
        noLeftDelim (substitute args segs) = true) := by
  obtain ⟨nodes, hlex, hexec⟩ := lex_templateSource args segs [] hsegs
  simp only [List.reverse_nil, List.nil_append] at hexec
  refine ⟨EncodeToString (substitute args segs), ?_, DecodeString_EncodeToString _, ?_⟩
  · exact filebase64OrPanic_of_render fs args w _ nodes _ hfile hlex hexec
  · intro hvalues
    exact noLeftDelim_substitute args segs hsegs hvalues

/-- Witness for C8: the rendering example of the specification, a template with each of
the four placeholders exactly once and the request with path `p`, project `proj`, region
`europe-west2` and function name `function`.  The decoded text holds the four literals in
place of the placeholders and no left delimiter. -/
theorem filebase64OrPanic_substitutes_witness :
    ∃ enc, (filebase64OrPanic sampleFiles sampleRequest emptyWorld).1 = .ret (.lit enc) ∧
      DecodeString enc = some (ascii ("x-src: p\naddress: https://europe-west2-proj" ++
        ".cloudfunctions.net/function\npaths: \x7b/hello/\x7bid\x7d: \x7b\x7d\x7d\n")) ∧
      noLeftDelim (ascii ("x-src: p\naddress: https://europe-west2-proj" ++
        ".cloudfunctions.net/function\npaths: \x7b/hello/\x7bid\x7d: \x7b\x7d\x7d\n")) = true :=
  have hsub : substitute sampleRequest sampleSegments
      = ascii ("x-src: p\naddress: https://europe-west2-proj" ++
        ".cloudfunctions.net/function\npaths: \x7b/hello/\x7bid\x7d: \x7b\x7d\x7d\n") := by
    decide
  match filebase64OrPanic_substitutes sampleFiles sampleRequest emptyWorld sampleSegments
      (by decide) rfl with
  | ⟨enc, hret, hdec, hno⟩ =>
    ⟨enc, hret, hsub ▸ hdec, hsub ▸ hno (fun f => by cases f <;> decide)⟩

/-- C9. In every successful build the one API config declaration embeds exactly one
OpenAPI document.  Its path is `openapi.yaml` and its contents are what
`filebase64OrPanic` returns (in any state) for the request with the template file
`openapi.yaml`, `Project` and `Region` taken from the arguments of the call, and the fixed
`FunctionName` `function`, which is also the `Name` of the one function the build declares.
The one file the build reads is `openapi.yaml`. -/
theorem NewService_openapi_document (fs : FileSystem) (ctx : Context) (name : GoString)
    (args : ServiceArgs) (opts : List ResourceOption) (w : World) (s : Option Service)
    (h : (NewService fs ctx name (some args) opts w).1 = .ret (s, none)) :
    ∃ contents,
      ((NewService.events fs ctx name (some args) opts w).filterMap Event.apiConfigArgs).map
          (fun a => a.OpenapiDocuments)
        = [[{ Document := { Path := .lit (ascii "openapi.yaml"), Contents := contents } }]] ∧
      (∀ w0, (filebase64OrPanic fs
          { Path := ascii "openapi.yaml", Project := args.Project, Region := args.Region,
            FunctionName := ascii "function" } w0).1 = .ret contents) ∧
      ((NewService.events fs ctx name (some args) opts w).filterMap Event.functionArgs).map
          (fun a => a.Name) = [.lit (ascii "function")] ∧
      (NewService.events fs ctx name (some args) opts w).filterMap Event.fileRead
        = [ascii "openapi.yaml"] := by
  obtain ⟨buf, bucket, bucketObject, function, iam, api, apiConfig, gateway, _, hc, hevs⟩ :=
    NewService_success_events fs ctx name args opts w s h
  refine ⟨.lit (EncodeToString buf), ?_, ?_, ?_, ?_⟩
  · rw [hevs]
    simp [declaredTopology, Event.apiConfigArgs]
  · intro w0
    rw [filebase64OrPanic_outcome fs _ w0 emptyWorld]
    exact hc
  · rw [hevs]
    simp [declaredTopology, Event.functionArgs]
  · rw [hevs]
    simp [declaredTopology, Event.fileRead]

/-- Witness for C9: the end-to-end example; the document is the sample template rendered
with the project and the region of the call. -/
theorem NewService_openapi_document_witness :
    ∃ contents,
      ((NewService.events sampleFiles acceptAll (ascii "svc") (some sampleArgs) []
          emptyWorld).filterMap Event.apiConfigArgs).map (fun a => a.OpenapiDocuments)
        = [[{ Document := { Path := .lit (ascii "openapi.yaml"), Contents := contents } }]] ∧
      (filebase64OrPanic sampleFiles
          { Path := ascii "openapi.yaml", Project := ascii "proj",
            Region := ascii "europe-west2", FunctionName := ascii "function" }
          emptyWorld).1 = .ret contents :=
  match NewService_openapi_document sampleFiles acceptAll (ascii "svc") sampleArgs []
      emptyWorld (some ⟨0⟩) (by decide) with
  | ⟨contents, hdoc, hren, _, _⟩ => ⟨contents, hdoc, hren emptyWorld⟩

/-- C10. In every build that gets past validation, the component is registered once, under
the type `bluprince13:gcp:Service` and the name and options of the call, with a freshly
allocated `Service` handle.  Every resource declaration the build submits carries exactly
one option, a parent option that references that same handle; and the service `NewService`
returns, when it returns one, is that handle. -/
theorem NewService_parent (fs : FileSystem) (ctx : Context) (name : GoString)
    (args : ServiceArgs) (opts : List ResourceOption) (w : World)
    (hProject : args.Project ≠ []) (hRegion : args.Region ≠ []) (hPath : args.Path ≠ []) :
    (NewService.events fs ctx name (some args) opts w).filterMap Event.registered
      = [(ascii "bluprince13:gcp:Service", name, ⟨w.heap⟩, opts)] ∧
    (∀ ev ∈ NewService.events fs ctx name (some args) opts w, ev.isDeclaration = true →
      ev.declOpts = some [.Parent ⟨w.heap⟩]) ∧
    (∀ s e, (NewService fs ctx name (some args) opts w).1 = .ret (some s, e) →
      s = ⟨w.heap⟩) := by
  obtain ⟨hreg, hopts, _, herr, _, _⟩ :=
    NewService_run_events fs ctx name args opts w hProject hRegion hPath
  refine ⟨hreg, ?_, ?_⟩
  · intro ev hev hdecl
    obtain ⟨os, hos⟩ := Event.declOpts_of_isDeclaration ev hdecl
    rw [hos, hopts ev hev os hos]
  · intro s e h
    cases e with
    | some e => exact absurd (herr (some s) e h).1 (by simp)
    | none =>
      obtain ⟨_, _, _, _, _, _, _, _, hs, _, _⟩ :=
        NewService_success_events fs ctx name args opts w (some s) h
      simpa using hs

/-- Witness for C10: the end-to-end example.  All seven declarations are submitted, each
with the handle at address 0 as parent, and that handle is returned. -/
theorem NewService_parent_witness :
    ((NewService.events sampleFiles acceptAll (ascii "svc") (some sampleArgs) []
        emptyWorld).filter Event.isDeclaration).length = 7 ∧
    (∀ ev ∈ NewService.events sampleFiles acceptAll (ascii "svc") (some sampleArgs) []
        emptyWorld, ev.isDeclaration = true → ev.declOpts = some [.Parent ⟨0⟩]) ∧
    (NewService sampleFiles acceptAll (ascii "svc") (some sampleArgs) [] emptyWorld).1
      = .ret (some ⟨0⟩, none) :=
  ⟨by decide,
   (NewService_parent sampleFiles acceptAll (ascii "svc") sampleArgs [] emptyWorld
      (by decide) (by decide) (by decide)).2.1,
   by decide⟩

end GcpDemo
